import Mathlib

/-!
Verification of the Minnesota lakes record-linkage pipeline
(`preprocess_all_data_no_fish_dupes.py`, with the legacy CPUE cleaning of
`preprocess_all_data.py` embedded for comparison).

Rows of the tabular sources are modelled as structures whose fields are
`Option String`: `none` stands for a missing cell (pandas `NaN`), `some s`
for the cell text.  Python floats are modelled by `FloatVal` (an exact
rational, or an infinity, or NaN).  Python string primitives are modelled
by structurally recursive functions over `String.data`.
-/

set_option maxRecDepth 8000

/-- Whitespace test used by Python `str.strip`. -/
def pySpace (c : Char) : Bool := c.isWhitespace

/-- Model of Python `str.strip()` on the character list. -/
def stripChars (l : List Char) : List Char :=
  ((l.dropWhile pySpace).reverse.dropWhile pySpace).reverse

/-- Model of Python `str.strip()`. -/
def pyStrip (s : String) : String := String.mk (stripChars s.data)

/-- Model of Python `str.lower()` (ASCII, which covers the source data). -/
def pyLower (s : String) : String := String.mk (s.data.map Char.toLower)

/-- Character-list test backing `pyBeginsWith`. -/
def charsBeginWith : List Char → List Char → Bool
  | _, [] => true
  | [], _ :: _ => false
  | c :: cs, p :: ps => c == p && charsBeginWith cs ps

/-- Model of Python `str.startswith(pat)`. -/
def pyBeginsWith (s pat : String) : Bool := charsBeginWith s.data pat.data

/-- Model of Python `str.endswith(pat)`. -/
def pyFinishesWith (s pat : String) : Bool :=
  charsBeginWith s.data.reverse pat.data.reverse

/-- Model of Python slicing `s[2:-1]`. -/
def pyDrop2DropLast (s : String) : String := String.mk ((s.data.drop 2).dropLast)

/-- Values produced by Python `float(...)` / `pandas.to_numeric`:
a finite value (kept exact as `num / den`, with `den` the power of ten
given by the decimal literal), the two infinities, or NaN. -/
inductive FloatVal where
  | fin (num : Int) (den : Nat)
  | inf
  | ninf
  | nan
deriving DecidableEq

/-- The rational value of a finite `FloatVal`. -/
def FloatVal.val : FloatVal → Option ℚ
  | .fin num den => some ((num : ℚ) / (den : ℚ))
  | _ => none

/-- Decimal value of a digit list (`['1','2','3']` ↦ `123`). -/
def digitsToNat (l : List Char) : Nat :=
  l.foldl (fun acc c => acc * 10 + (c.toNat - '0'.toNat)) 0

/-- Split a character list at the occurrences of `'.'`. -/
def splitDot : List Char → List (List Char)
  | [] => [[]]
  | c :: cs =>
    let r := splitDot cs
    if c == '.' then [] :: r
    else
      match r with
      | h :: t => (c :: h) :: t
      | [] => [[c]]

/-- Parse an unsigned decimal literal, with an optional single decimal
point (`"12"`, `"12.5"`, `"12."`, `".5"`), into an exact rational;
anything else fails (models the `ValueError` of Python `float`). -/
def parseDecimalBody (sgn : Int) (body : List Char) : Option FloatVal :=
  match splitDot body with
  | [d] =>
    if d ≠ [] ∧ d.all Char.isDigit then
      some (FloatVal.fin (sgn * (digitsToNat d : Int)) 1)
    else none
  | [a, b] =>
    if (a ++ b) ≠ [] ∧ (a ++ b).all Char.isDigit then
      some (FloatVal.fin (sgn * ((digitsToNat a : Int) * (10 ^ b.length) + (digitsToNat b : Int)))
        (10 ^ b.length))
    else none
  | _ => none

/-- Model of Python `float(s)` (also used for `pandas.to_numeric`):
whitespace-trimmed and case-insensitive; accepts an optional sign,
`inf`/`infinity`, `nan`, and plain decimal literals.  `none` models a
`ValueError` (e.g. on `""`, `"1,234"`, `"∞"`). -/
def pyFloatOfString (s0 : String) : Option FloatVal :=
  let l := (stripChars s0.data).map Char.toLower
  let sgn : Int := if l.head? = some '-' then -1 else 1
  let body := if l.head? = some '-' ∨ l.head? = some '+' then l.drop 1 else l
  if body = "inf".data ∨ body = "infinity".data then
    some (if sgn < 0 then FloatVal.ninf else FloatVal.inf)
  else if body = "nan".data then some FloatVal.nan
  else parseDecimalBody sgn body

/-- Python `int(x)` on a finite float `num / den`: truncation toward
zero (`Int.tdiv` is Lean's truncating division). -/
def finTrunc (num : Int) (den : Nat) : Int := num.tdiv den

/-- Source `get_cleaned_id` (non-missing branch): strip surrounding
whitespace, remove a spreadsheet-formula wrapper `="..."`, strip again. -/
def get_cleaned_id (s : String) : String :=
  let c := pyStrip s
  let c2 := if pyBeginsWith c "=\"" ∧ pyFinishesWith c "\"" then pyDrop2DropLast c else c
  pyStrip c2

/-- Source `normalize_name`: `None`/`''` normalize to `None`, otherwise
lower-case then strip.  (Python may still return the empty string here,
e.g. for `" "`; truthiness checks at the use sites treat that as no name,
see `truthyNormName`.) -/
def normalizeName : Option String → Option String
  | none => none
  | some s => if s = "" then none else some (pyStrip (pyLower s))

/-- A normalized name that is truthy in Python (non-`None` and non-empty),
exactly the guard `if norm_name:` used throughout the source. -/
def truthyNormName (x : Option String) : Option String :=
  match normalizeName x with
  | none => none
  | some n => if n = "" then none else some n

/-- Python truthiness of an optional string: `None` and `""` are falsy. -/
def pyFalsyStr : Option String → Bool
  | none => true
  | some s => s == ""

/-- Combined `pd.to_numeric(..., errors='coerce')` followed by `int(...)`
inside the source's bare `try/except`: a finite value truncates toward
zero; a parse failure, NaN, or infinity (whose `int()` raises) gives
`none`. -/
def toNumericInt (s : String) : Option Int :=
  match pyFloatOfString s with
  | some (FloatVal.fin num den) => some (finTrunc num den)
  | _ => none

/-- Python `f"{n:02d}"`: decimal representation left-padded with zeros to
total width 2 (the sign counts toward the width). -/
def pyFormat02d (n : Int) : String :=
  if n < 0 then "-" ++ toString n.natAbs
  else if (toString n.toNat).length ≥ 2 then toString n.toNat
  else String.mk (List.replicate (2 - (toString n.toNat).length) '0') ++ toString n.toNat

/-- Canonical-key (`map_id`) derivation from the two raw DOW codes, as in
`process_lake_metadata` (both passes): requires both cells present, cleans
each with `get_cleaned_id`, parses numerically, and formats
`f"{int(primary)}{int(sub_basin):02d}"`; every failure path yields `None`. -/
def currentMapId (p s : Option String) : Option String :=
  match p, s with
  | some rp, some rs =>
    match toNumericInt (get_cleaned_id rp), toNumericInt (get_cleaned_id rs) with
    | some np, some ns => some (toString np ++ pyFormat02d ns)
    | _, _ => none
  | _, _ => none

example : currentMapId (some "12345") (some "3") = some "1234503" := by decide
example : currentMapId (some " =\"12345\" ") (some "3.0") = some "1234503" := by decide
example : currentMapId (some "12345") none = none := by decide
example : currentMapId (some "abc") (some "3") = none := by decide
example : currentMapId (some "12345") (some "inf") = none := by decide
example : pyFloatOfString "INF" = some FloatVal.inf := by decide
example : pyFloatOfString "∞" = none := by decide
example : pyFloatOfString "-3.5" = some (FloatVal.fin (-35) 10) := by decide
example : pyFloatOfString "1,234" = none := by decide
example : pyFormat02d 3 = "03" := by decide
example : pyFormat02d 123 = "123" := by decide

/-- One row of the primary registry table
(`attached_assets/fisheries_lake_data.csv`); each field is the raw cell,
`none` for a missing value. -/
structure SrcRow where
  fwId : Option String
  lakeName : Option String
  altLakeName : Option String
  dowPrimary : Option String
  dowSubBasin : Option String
  areaAcres : Option String
  lat : Option String
  long : Option String
deriving DecidableEq

/-- A primary row after the county merge of lines 81-94. -/
structure MergedRow extends SrcRow where
  county : String
deriving DecidableEq

/-- Python `str(x)` on a possibly-missing cell, as produced by pandas
`astype(str)` (`NaN` becomes the string `"nan"`). -/
def pyStrOfOpt : Option String → String
  | none => "nan"
  | some s => s

/-- The metadata table, reduced to its join columns: `none` models a
missing `LAKE_METADATA_2024.csv` file; each pair is
`(FISHERIES_WATERBODY_ID, COUNTY_NAME)`. -/
def MetaTable := Option (List (String × Option String))

/-- The `astype(str)` step of line 89 applied to a primary row's ID. -/
def astrRow (r : SrcRow) : SrcRow := { r with fwId := some (pyStrOfOpt r.fwId) }

/-- A primary row stamped with a county value. -/
def withCounty (r : SrcRow) (c : String) : MergedRow := { toSrcRow := r, county := c }

/-- Matches of one primary row in the metadata table under the pandas
left merge on `FISHERIES_WATERBODY_ID` (both sides `astype(str)`):
no match keeps the row once with the fill-in county, k matches emit the
row k times. -/
def mergeOne (ms : List (String × Option String)) (r : SrcRow) : List MergedRow :=
  match ms.filter (fun p => p.1 = pyStrOfOpt r.fwId) with
  | [] => [withCounty (astrRow r) "Unknown (Not in Metadata)"]
  | l => l.map (fun p => withCounty (astrRow r) (p.2.getD "Unknown (Not in Metadata)"))

/-- County enrichment of the primary table (source lines 81-94): a missing
metadata file stamps every row with `'Unknown (Metadata Missing)'`;
otherwise a pandas left merge on the stringified ID, with missing
counties filled by `'Unknown (Not in Metadata)'`. -/
def mergeCounty (rows : List SrcRow) (meta : MetaTable) : List MergedRow :=
  match meta with
  | none => rows.map (fun r => withCounty r "Unknown (Metadata Missing)")
  | some ms => rows.flatMap (mergeOne ms)

/-- Ordering on parsed numeric cells used by the size filter
(`df[col] >= min`): NaN and parse failures compare false, as in pandas. -/
def floatGe (v : Option FloatVal) (bound : ℚ) : Bool :=
  match v with
  | some (FloatVal.fin num den) => decide (bound ≤ (num : ℚ) / (den : ℚ))
  | some FloatVal.inf => true
  | _ => false

/-- The row filters of source lines 97-98: a positive `min_lake_size_acres`
keeps rows whose parsed area is present and at least the bound;
`require_coordinates` keeps rows with both coordinates parseable. -/
def applyFilters (minSize : ℚ) (reqCoord : Bool) (rows : List MergedRow) : List MergedRow :=
  let r1 := if 0 < minSize then
      rows.filter (fun r => floatGe (r.areaAcres.bind (fun s => pyFloatOfString s)) minSize)
    else rows
  if reqCoord then
    r1.filter (fun r => (r.lat.bind (fun s => pyFloatOfString s)).isSome &&
                        (r.long.bind (fun s => pyFloatOfString s)).isSome)
  else r1

/-- The `map_id` of a (merged) primary row. -/
def rowMapId (r : MergedRow) : Option String :=
  currentMapId r.dowPrimary r.dowSubBasin

/-- First pass of `process_lake_metadata` (lines 110-131): the
`(normalized name, map_id)` associations contributed by each row that has
a map_id — its primary name and its alternate name, when truthy. -/
def namePairs (rows : List MergedRow) : List (String × String) :=
  rows.flatMap (fun r =>
    match rowMapId r with
    | none => []
    | some m =>
      (match truthyNormName r.lakeName with
       | some n => [(n, m)]
       | none => []) ++
      (match truthyNormName r.altLakeName with
       | some n => [(n, m)]
       | none => []))

/-- All map_ids recorded for a name key, in insertion order (the Python
set `name_map_id_associations[k]` is the set of these). -/
def idsFor (rows : List MergedRow) (k : String) : List String :=
  ((namePairs rows).filter (fun p => p.1 == k)).map Prod.snd

/-- The distinct map_ids associated with a name key; the Python set for
`k` has exactly these elements. -/
def distinctIdsFor (rows : List MergedRow) (k : String) : List String :=
  (idsFor rows k).dedup

/-- The filtered name index `name_to_map_id_lookup` (lines 133-144): a
name key resolves exactly when its association set is a singleton;
ambiguous keys (two or more distinct map_ids) and unseen keys give
`None`. -/
def nameToMapIdLookup (rows : List MergedRow) (k : String) : Option String :=
  match distinctIdsFor rows k with
  | [m] => some m
  | _ => none

/-- A consolidated lake record as written to `data/lakes.json`
(identity and linkage fields; the cleaned numeric attributes are not
needed by any linkage claim). -/
structure LakeEntry where
  id : Option String
  name : String
  county : String
  alternate_name : Option String
  map_id : Option String
  dow_number : Option String
deriving DecidableEq

/-- The `dow_number` field (lines 170-173): decimal rendering of the
parsed primary code, falling back to the cleaned raw string when parsing
fails. -/
def dowNumberOf (r : MergedRow) : Option String :=
  match r.dowPrimary with
  | none => none
  | some raw =>
    match toNumericInt (get_cleaned_id raw) with
    | some n => some (toString n)
    | none => some (get_cleaned_id raw)

/-- Second pass of `process_lake_metadata` (lines 147-174): one output
record per (merged, filtered) row.  A missing name cell passes through
Python `str(nan)`. -/
def mkLakeEntry (r : MergedRow) : LakeEntry :=
  { id := r.fwId.map get_cleaned_id
    name := pyStrip (pyStrOfOpt r.lakeName)
    county := pyStrip r.county
    alternate_name := r.altLakeName.map get_cleaned_id
    map_id := rowMapId r
    dow_number := dowNumberOf r }

/-- Whole `process_lake_metadata` stage: merge the county source, apply
the row filters, and return the consolidated lake list together with the
filtered name index (both computed from the same processed table). -/
def processLakeMetadata (rows : List SrcRow) (meta : MetaTable)
    (minSize : ℚ) (reqCoord : Bool) : List LakeEntry × (String → Option String) :=
  let prows := applyFilters minSize reqCoord (mergeCounty rows meta)
  (prows.map mkLakeEntry, nameToMapIdLookup prows)

/-- One row of a name-keyed auxiliary file (catch or length survey);
fields are the raw cells as read with `dtype=str`. -/
structure FishRow where
  lakeName : Option String
  altName : Option String
  species : Option String
  surveyDate : Option String
  cpueRaw : Option String
  totalCatchRaw : Option String
  gear : Option String
deriving DecidableEq

/-- Name resolution of one auxiliary row (`process_fish_data`,
lines 205-209): look the truthy normalized primary name up; when the
result is falsy (and the alternate-name column exists), a truthy
normalized alternate name re-assigns the key to its lookup result. -/
def resolveRaw (lookup : String → Option String) (hasAlt : Bool) (r : FishRow) : Option String :=
  let k1 : Option String :=
    match truthyNormName r.lakeName with
    | some n => lookup n
    | none => none
  if pyFalsyStr k1 && hasAlt then
    match truthyNormName r.altName with
    | some a => lookup a
    | none => k1
  else k1

/-- The name key through which an auxiliary row is linked: the primary
name when its lookup is truthy, otherwise the alternate name when its
lookup is truthy, otherwise nothing. -/
def usedKey (lookup : String → Option String) (hasAlt : Bool) (r : FishRow) : Option String :=
  match truthyNormName r.lakeName with
  | some n =>
    if !pyFalsyStr (lookup n) then some n
    else
      match (if hasAlt then truthyNormName r.altName else none) with
      | some a => if !pyFalsyStr (lookup a) then some a else none
      | none => none
  | none =>
    match (if hasAlt then truthyNormName r.altName else none) with
    | some a => if !pyFalsyStr (lookup a) then some a else none
    | none => none

/-- The cleaned species code of an auxiliary row. -/
def cleanedSpecies (r : FishRow) : Option String := r.species.map get_cleaned_id

/-- The `(map_id, species)` slot an auxiliary row creates in the output
mapping (lines 211-216): present exactly when both the resolved key and
the cleaned species code are truthy. -/
def rowSlot (lookup : String → Option String) (hasAlt : Bool) (r : FishRow) :
    Option (String × String) :=
  let k := resolveRaw lookup hasAlt r
  if pyFalsyStr k || pyFalsyStr (cleanedSpecies r) then none
  else
    match k, cleanedSpecies r with
    | some m, some sp => some (m, sp)
    | _, _ => none

/-- The top-level map_id keys created in the emitted mapping, row by row
(the JSON object's key set is the set of these). -/
def fishTopKeys (lookup : String → Option String) (hasAlt : Bool)
    (rows : List FishRow) : List String :=
  rows.filterMap (fun r => (rowSlot lookup hasAlt r).map Prod.fst)

/-- Whether a row is counted in `unlinked_records` (line 213): final key
falsy while the normalized primary lake name is truthy. -/
def countsUnlinked (lookup : String → Option String) (hasAlt : Bool) (r : FishRow) : Bool :=
  pyFalsyStr (resolveRaw lookup hasAlt r) && (truthyNormName r.lakeName).isSome

/-- The `unlinked_records` counter over a whole auxiliary file. -/
def unlinkedCount (lookup : String → Option String) (hasAlt : Bool)
    (rows : List FishRow) : Nat :=
  (rows.filter (countsUnlinked lookup hasAlt)).length

/-- The CPUE value stored in a catch entry (line 220-223): `None` unless
the cell is present and `float()` succeeds on its stripped, lowered text;
the conditional of the source keeps `float(val_str)` in both branches. -/
def parseCpue (raw : Option String) : Option FloatVal :=
  match raw with
  | none => none
  | some r0 =>
    let v := pyLower (pyStrip r0)
    if v ∈ ["∞", "inf", "infinity", "-inf"] then pyFloatOfString v else pyFloatOfString v

/-- The total-catch value stored in a catch entry (lines 224-227), as
`int(float(raw))` under `except ValueError`.  The outer `none` models the
uncaught `OverflowError` of `int()` on an infinite float; `some none` is
the unknown sentinel. -/
def parseTotalCatch (raw : Option String) : Option (Option Int) :=
  match raw with
  | none => some none
  | some r0 =>
    match pyFloatOfString r0 with
    | none => some none
    | some (FloatVal.fin num den) => some (some (finTrunc num den))
    | some FloatVal.nan => some none
    | some FloatVal.inf => none
    | some FloatVal.ninf => none

/-- A catch observation as emitted to `data/fish_catch.json`. -/
structure CatchEntry where
  survey_date : Option String
  cpue : Option FloatVal
  total_catch : Option Int
  gear_type : Option String
deriving DecidableEq

/-- The catch entry built for a linked row (lines 218-228); `none` models
the stage crashing on an infinite total-catch cell. -/
def mkCatchEntry (r : FishRow) : Option CatchEntry :=
  match parseTotalCatch r.totalCatchRaw with
  | none => none
  | some tc =>
    some { survey_date := r.surveyDate.map get_cleaned_id
           cpue := parseCpue r.cpueRaw
           total_catch := tc
           gear_type := r.gear.map get_cleaned_id }

/-- The `cpue_value` of the legacy variant
(`preprocess_all_data.py`, lines 317-333): textual infinity tokens map to
`float('inf')`; a missing cell or a `ValueError` falls back to `0`. -/
def legacyCpueValue (raw : Option String) : FloatVal :=
  match raw with
  | none => FloatVal.fin 0 1
  | some s =>
    if pyLower s ∈ ["∞", "inf", "infinity"] then FloatVal.inf
    else (pyFloatOfString s).getD (FloatVal.fin 0 1)

/-- The CPUE stored in a legacy catch entry (line 352):
`cpue_value if cpue_value != float('inf') else None`. -/
def legacyCpueEntry (raw : Option String) : Option FloatVal :=
  let v := legacyCpueValue raw
  if v == FloatVal.inf then none else some v

example : parseCpue (some "inf") = some FloatVal.inf := by decide
example : parseCpue (some "∞") = none := by decide
example : parseCpue (some "1,234") = none := by decide
example : parseCpue (some "12.5") = some (FloatVal.fin 125 10) := by decide
example : parseTotalCatch (some "0") = some (some 0) := by decide
example : parseTotalCatch (some "7") = some (some 7) := by decide
example : parseTotalCatch (some "x") = some none := by decide
example : parseTotalCatch (some "inf") = none := by decide
example : legacyCpueEntry (some "inf") = none := by decide
example : legacyCpueEntry (some "∞") = none := by decide
example : legacyCpueEntry none = some (FloatVal.fin 0 1) := by decide

/-- Claim-side reading of "parses as an integer": the cleaned code parses
to a finite float with an exact integer value. -/
def parseIntStrict (s : String) : Option Int :=
  match pyFloatOfString s with
  | some (FloatVal.fin num den) =>
    if num.emod den = 0 then some (num.tdiv den) else none
  | _ => none

lemma parseIntStrict_toNumericInt {s : String} {n : Int}
    (h : parseIntStrict s = some n) : toNumericInt s = some n := by
  cases hp : pyFloatOfString s with
  | none => simp [parseIntStrict, hp] at h
  | some v =>
    cases v with
    | fin num den =>
      simp only [parseIntStrict, hp] at h
      by_cases hz : num.emod den = 0
      · rw [if_pos hz] at h
        simp only [toNumericInt, hp]
        exact h
      · rw [if_neg hz] at h
        exact absurd h (by simp)
    | inf => simp [parseIntStrict, hp] at h
    | ninf => simp [parseIntStrict, hp] at h
    | nan => simp [parseIntStrict, hp] at h

/-- Claim C1: the canonical key is a pure function of the two codes —
when both codes parse as integers it is the unpadded primary followed by
the width-2 zero-padded sub-basin (e.g. `12345`/`3` ↦ `"1234503"`), and a
missing or numerically unparsable code on either side yields `None`. -/
theorem claim_C1_canonical_key :
    (∀ rp rs np ns,
        parseIntStrict (get_cleaned_id rp) = some np →
        parseIntStrict (get_cleaned_id rs) = some ns →
        currentMapId (some rp) (some rs) = some (toString np ++ pyFormat02d ns)) ∧
    (∀ s, currentMapId none s = none) ∧
    (∀ p, currentMapId p none = none) ∧
    (∀ rp rs, pyFloatOfString (get_cleaned_id rp) = none →
        currentMapId (some rp) (some rs) = none) ∧
    (∀ rp rs, pyFloatOfString (get_cleaned_id rs) = none →
        currentMapId (some rp) (some rs) = none) ∧
    currentMapId (some "12345") (some "3") = some "1234503" := by
  refine ⟨?_, ?_, ?_, ?_, ?_, by decide⟩
  · intro rp rs np ns h1 h2
    have g1 := parseIntStrict_toNumericInt h1
    have g2 := parseIntStrict_toNumericInt h2
    simp [currentMapId, g1, g2]
  · intro s; cases s <;> rfl
  · intro p; cases p <;> rfl
  · intro rp rs h
    simp [currentMapId, toNumericInt, h]
  · intro rp rs h
    simp [currentMapId, toNumericInt, h]

theorem claim_C1_canonical_key_witness :
    parseIntStrict (get_cleaned_id "12345") = some 12345 ∧
    parseIntStrict (get_cleaned_id "3") = some 3 ∧
    currentMapId (some "12345") (some "3") =
      some (toString (12345 : Int) ++ pyFormat02d 3) :=
  ⟨by decide, by decide,
    claim_C1_canonical_key.1 "12345" "3" 12345 3 (by decide) (by decide)⟩

/-- Claim C4's failing input, evaluated on the code: a textual `"inf"` (or
`"INFINITY"`) CPUE cell is stored as a genuine infinity in the emitted
catch entry — only the symbol `"∞"` happens to give the `None` sentinel,
via the `ValueError` of `float('∞')` — whereas the legacy variant nulls
the infinity out as the spec describes. -/
theorem claim_C4_infinity_leak :
    parseCpue (some "inf") = some FloatVal.inf ∧
    parseCpue (some "INFINITY") = some FloatVal.inf ∧
    parseCpue (some "∞") = none ∧
    mkCatchEntry { lakeName := some "mud lake", altName := none, species := some "WAE",
                   surveyDate := none, cpueRaw := some "inf", totalCatchRaw := some "5",
                   gear := none } =
      some { survey_date := none, cpue := some FloatVal.inf,
             total_catch := some 5, gear_type := none } ∧
    legacyCpueEntry (some "inf") = none := by
  exact ⟨by decide, by decide, by decide, by decide, by decide⟩

/-- Claim C5: a missing or unparsable CPUE or total-catch cell is stored
as the unknown sentinel (`None`), never `0`, while the literal `"0"`
total catch is stored as the integer `0`, distinguishable from unknown. -/
theorem claim_C5_unknown_sentinel :
    parseCpue none = none ∧
    (∀ s, pyFloatOfString (pyLower (pyStrip s)) = none → parseCpue (some s) = none) ∧
    parseTotalCatch none = some none ∧
    (∀ s, pyFloatOfString s = none → parseTotalCatch (some s) = some none) ∧
    parseTotalCatch (some "0") = some (some 0) ∧
    (some (0 : Int) : Option Int) ≠ none := by
  refine ⟨rfl, ?_, rfl, ?_, by decide, by simp⟩
  · intro s h
    simp [parseCpue, h]
  · intro s h
    simp [parseTotalCatch, h]

theorem claim_C5_unknown_sentinel_witness :
    pyFloatOfString (pyLower (pyStrip "1,234")) = none ∧
    parseCpue (some "1,234") = none ∧
    pyFloatOfString "" = none ∧
    parseTotalCatch (some "") = some none :=
  ⟨by decide, claim_C5_unknown_sentinel.2.1 "1,234" (by decide), by decide,
    claim_C5_unknown_sentinel.2.2.2.1 "" (by decide)⟩

lemma pyStrip_ascii_fixed :
    pyStrip "Unknown (Metadata Missing)" = "Unknown (Metadata Missing)" := by decide

/-- Claim C8: with the metadata file absent the stage still emits one
record per primary row, each with the county placeholder
`'Unknown (Metadata Missing)'`. -/
theorem claim_C8_metadata_missing :
    ∀ rows : List SrcRow,
      ((processLakeMetadata rows none 0 false).1).map (fun e => e.county) =
        List.replicate rows.length "Unknown (Metadata Missing)" := by
  intro rows
  simp only [processLakeMetadata, mergeCounty, applyFilters, lt_irrefl, if_false,
    Bool.false_eq_true]
  rw [List.map_map]
  induction rows with
  | nil => rfl
  | cons r t ih =>
    simp only [List.map_cons, List.length_cons, List.replicate_succ]
    rw [ih]
    simp [Function.comp, mkLakeEntry, withCounty, pyStrip_ascii_fixed]


lemma pyFormat02d_length_pos (n : Int) : 0 < (pyFormat02d n).length := by
  unfold pyFormat02d
  by_cases hn : n < 0
  · rw [if_pos hn, String.length_append]
    have h1 : ("-" : String).length = 1 := rfl
    omega
  · rw [if_neg hn]
    by_cases hl : (toString n.toNat).length ≥ 2
    · rw [if_pos hl]
      omega
    · rw [if_neg hl, String.length_append, String.length_mk, List.length_replicate]
      omega

lemma mapId_ne_empty {p s : Option String} {m : String}
    (h : currentMapId p s = some m) : m ≠ "" := by
  cases p with
  | none =>
    have hz : currentMapId none s = none := by cases s <;> rfl
    rw [hz] at h; exact absurd h (by simp)
  | some rp =>
    cases s with
    | none =>
      have hz : currentMapId (some rp) none = none := rfl
      rw [hz] at h; exact absurd h (by simp)
    | some rs =>
      simp only [currentMapId] at h
      cases h1 : toNumericInt (get_cleaned_id rp) with
      | none => rw [h1] at h; simp at h
      | some np =>
        cases h2 : toNumericInt (get_cleaned_id rs) with
        | none => rw [h1, h2] at h; simp at h
        | some ns =>
          rw [h1, h2] at h
          simp at h
          intro hm
          subst hm
          have hlen := congrArg String.length h
          rw [String.length_append] at hlen
          have hpos := pyFormat02d_length_pos ns
          have hzero : ("" : String).length = 0 := rfl
          omega

lemma mem_namePairs {prows : List MergedRow} {k m : String}
    (h : (k, m) ∈ namePairs prows) : ∃ r ∈ prows, rowMapId r = some m := by
  simp only [namePairs, List.mem_flatMap] at h
  obtain ⟨r, hr, hp⟩ := h
  refine ⟨r, hr, ?_⟩
  cases hmap : rowMapId r with
  | none => rw [hmap] at hp; simp at hp
  | some m0 =>
    rw [hmap] at hp
    cases h1 : truthyNormName r.lakeName <;> cases h2 : truthyNormName r.altLakeName <;>
        rw [h1, h2] at hp <;> simp at hp
    · rw [hp.2]
    · rw [hp.2]
    · rcases hp with ⟨_, hm⟩ | ⟨_, hm⟩ <;> rw [hm]

lemma mem_idsFor {prows : List MergedRow} {k m : String}
    (h : m ∈ idsFor prows k) : ∃ r ∈ prows, rowMapId r = some m := by
  simp only [idsFor, List.mem_map, List.mem_filter] at h
  obtain ⟨⟨k1, m1⟩, ⟨hmem, hk⟩, hm⟩ := h
  simp only at hm
  subst hm
  have hk1 : k1 = k := by simpa using hk
  subst hk1
  exact mem_namePairs hmem

lemma lookup_mem {prows : List MergedRow} {k m : String}
    (h : nameToMapIdLookup prows k = some m) : ∃ r ∈ prows, rowMapId r = some m := by
  have hmem : m ∈ distinctIdsFor prows k := by
    unfold nameToMapIdLookup at h
    cases hd : distinctIdsFor prows k with
    | nil => rw [hd] at h; simp at h
    | cons m1 t =>
      cases t with
      | nil =>
        rw [hd] at h
        simp at h
        rw [h]
        exact List.mem_singleton.mpr rfl
      | cons m2 t2 => rw [hd] at h; simp at h
  exact mem_idsFor (List.mem_dedup.mp hmem)

lemma lookup_ne_empty {prows : List MergedRow} {k m : String}
    (h : nameToMapIdLookup prows k = some m) : m ≠ "" := by
  obtain ⟨r, _, hmap⟩ := lookup_mem h
  exact mapId_ne_empty hmap

lemma usedKey_falsity {lookup : String → Option String} {hasAlt : Bool} {r : FishRow}
    {k : String} (h : usedKey lookup hasAlt r = some k) :
    pyFalsyStr (lookup k) = false := by
  unfold usedKey at h
  cases h1 : truthyNormName r.lakeName with
  | some n =>
    rw [h1] at h
    cases hf : pyFalsyStr (lookup n) with
    | false =>
      simp [hf] at h
      subst h
      exact hf
    | true =>
      simp only [hf, Bool.not_true] at h
      simp at h
      cases h2 : (if hasAlt then truthyNormName r.altName else none) with
      | none => rw [h2] at h; simp at h
      | some a =>
        rw [h2] at h
        cases hg : pyFalsyStr (lookup a) with
        | false =>
          simp [hg] at h
          subst h
          exact hg
        | true => simp [hg] at h
  | none =>
    rw [h1] at h
    simp at h
    cases h2 : (if hasAlt then truthyNormName r.altName else none) with
    | none => rw [h2] at h; simp at h
    | some a =>
      rw [h2] at h
      cases hg : pyFalsyStr (lookup a) with
      | false =>
        simp [hg] at h
        subst h
        exact hg
      | true => simp [hg] at h

/-- Claim C2: a name key resolves through the filtered index exactly when
its set of distinct canonical keys is a singleton, and a key associated
with two or more distinct canonical keys is never the key through which
any auxiliary row is linked. -/
theorem claim_C2_ambiguous_names :
    ∀ prows k,
      ((nameToMapIdLookup prows k).isSome ↔ (distinctIdsFor prows k).length = 1) ∧
      (2 ≤ (distinctIdsFor prows k).length →
        ∀ hasAlt r, usedKey (nameToMapIdLookup prows) hasAlt r ≠ some k) := by
  intro prows k
  constructor
  · unfold nameToMapIdLookup
    cases hd : distinctIdsFor prows k with
    | nil => simp
    | cons m1 t =>
      cases t with
      | nil => simp
      | cons m2 t2 => simp
  · intro h2 hasAlt r heq
    have hnone : nameToMapIdLookup prows k = none := by
      unfold nameToMapIdLookup
      cases hd : distinctIdsFor prows k with
      | nil => rfl
      | cons m1 t =>
        cases t with
        | nil =>
          rw [hd] at h2
          simp at h2
        | cons m2 t2 => rfl
    have hfal := usedKey_falsity heq
    rw [hnone] at hfal
    simp [pyFalsyStr] at hfal

/-- Claim C3: permuting the primary table changes neither the filtered
name index (same resolving keys, same canonical key for each) nor, up to
order, any key's list of distinct associated canonical keys (hence the
same ambiguous keys are excluded). -/
theorem claim_C3_order_independence :
    ∀ prows prows', List.Perm prows prows' →
      (∀ k, nameToMapIdLookup prows k = nameToMapIdLookup prows' k) ∧
      (∀ k, List.Perm (distinctIdsFor prows k) (distinctIdsFor prows' k)) := by
  intro prows prows' hperm
  have hids : ∀ k, List.Perm (idsFor prows k) (idsFor prows' k) := by
    intro k
    exact ((hperm.flatMap_right _).filter _).map _
  have hdist : ∀ k, List.Perm (distinctIdsFor prows k) (distinctIdsFor prows' k) := by
    intro k
    exact (hids k).dedup
  refine ⟨?_, hdist⟩
  intro k
  unfold nameToMapIdLookup
  have hk := hdist k
  cases hd : distinctIdsFor prows k with
  | nil =>
    rw [hd] at hk
    have h' : distinctIdsFor prows' k = [] := hk.symm.eq_nil
    rw [h']
  | cons m1 t =>
    cases t with
    | nil =>
      rw [hd] at hk
      have h' : distinctIdsFor prows' k = [m1] := List.perm_singleton.mp hk.symm
      rw [h']
    | cons m2 t2 =>
      rw [hd] at hk
      have hlen := hk.length_eq
      cases h' : distinctIdsFor prows' k with
      | nil => rfl
      | cons a u =>
        cases u with
        | nil =>
          rw [h'] at hlen
          simp at hlen
        | cons b v => rfl

/-- Two primary rows sharing the lake name `"Mud Lake"` but carrying
different DOW codes (hence distinct canonical keys). -/
def wRowA : MergedRow :=
  { fwId := some "1", lakeName := some "Mud Lake", altLakeName := none,
    dowPrimary := some "100", dowSubBasin := some "0", areaAcres := none,
    lat := none, long := none, county := "Aitkin" }

def wRowB : MergedRow :=
  { fwId := some "2", lakeName := some "Mud Lake", altLakeName := none,
    dowPrimary := some "200", dowSubBasin := some "0", areaAcres := none,
    lat := none, long := none, county := "Cass" }

/-- A catch row whose lake name is the shared (ambiguous) name. -/
def wFishMud : FishRow :=
  { lakeName := some "Mud Lake", altName := none, species := some "WAE",
    surveyDate := none, cpueRaw := none, totalCatchRaw := none, gear := none }

theorem claim_C2_ambiguous_names_witness :
    2 ≤ (distinctIdsFor [wRowA, wRowB] "mud lake").length ∧
    usedKey (nameToMapIdLookup [wRowA, wRowB]) true wFishMud ≠ some "mud lake" :=
  ⟨by decide,
    (claim_C2_ambiguous_names [wRowA, wRowB] "mud lake").2 (by decide) true wFishMud⟩

theorem claim_C3_order_independence_witness :
    List.Perm [wRowA, wRowB] [wRowB, wRowA] ∧
    nameToMapIdLookup [wRowA, wRowB] "mud lake" =
      nameToMapIdLookup [wRowB, wRowA] "mud lake" :=
  ⟨by decide,
    (claim_C3_order_independence [wRowA, wRowB] [wRowB, wRowA] (by decide)).1 "mud lake"⟩

/-- Claim C7: matching precedence for a name-keyed auxiliary row — the
normalized primary name is consulted first in the filtered index; the
normalized alternate name is consulted only when the primary-name step
produced no key; the first successful step fixes the key. -/
theorem claim_C7_matching_order :
    ∀ prows hasAlt r,
      resolveRaw (nameToMapIdLookup prows) hasAlt r =
        match (truthyNormName r.lakeName).bind (nameToMapIdLookup prows) with
        | some m => some m
        | none =>
          if hasAlt then (truthyNormName r.altName).bind (nameToMapIdLookup prows)
          else none := by
  intro prows hasAlt r
  unfold resolveRaw
  cases h1 : truthyNormName r.lakeName with
  | none =>
    simp only [Option.none_bind, pyFalsyStr, Bool.true_and]
    cases hasAlt with
    | false => simp
    | true =>
      simp only [if_true]
      cases h2 : truthyNormName r.altName with
      | none => simp
      | some a => simp
  | some n =>
    cases hl : nameToMapIdLookup prows n with
    | none =>
      simp only [hl, Option.some_bind, pyFalsyStr, Bool.true_and]
      cases hasAlt with
      | false => simp [hl]
      | true =>
        simp only [if_true]
        cases h2 : truthyNormName r.altName with
        | none => simp [hl]
        | some a => simp [hl]
    | some m =>
      have hm : m ≠ "" := lookup_ne_empty hl
      simp [hl, pyFalsyStr, hm]

lemma resolveRaw_some {lookup : String → Option String} {hasAlt : Bool} {r : FishRow}
    {m : String} (h : resolveRaw lookup hasAlt r = some m) :
    ∃ n, lookup n = some m := by
  unfold resolveRaw at h
  cases h1 : truthyNormName r.lakeName with
  | some n =>
    rw [h1] at h
    by_cases hc : (pyFalsyStr (lookup n) && hasAlt) = true
    · rw [if_pos hc] at h
      cases h2 : truthyNormName r.altName with
      | some a => rw [h2] at h; exact ⟨a, h⟩
      | none => rw [h2] at h; exact ⟨n, h⟩
    · rw [if_neg hc] at h
      exact ⟨n, h⟩
  | none =>
    rw [h1] at h
    by_cases hc : (pyFalsyStr none && hasAlt) = true
    · rw [if_pos hc] at h
      cases h2 : truthyNormName r.altName with
      | some a => rw [h2] at h; exact ⟨a, h⟩
      | none => rw [h2] at h; exact absurd h (by simp)
    · rw [if_neg hc] at h
      exact absurd h (by simp)

lemma resolveRaw_ne_empty {prows : List MergedRow} {hasAlt : Bool} {r : FishRow}
    {m : String} (h : resolveRaw (nameToMapIdLookup prows) hasAlt r = some m) :
    m ≠ "" := by
  obtain ⟨n, hn⟩ := resolveRaw_some h
  exact lookup_ne_empty hn

/-- Claim C9: every top-level key of the emitted catch (or length) mapping
is the `map_id` of some lake record emitted from the same processed
primary table, whatever filter parameters and auxiliary rows the run
uses. -/
theorem claim_C9_no_orphan_keys :
    ∀ rows meta minSize reqCoord hasAlt frows m,
      m ∈ fishTopKeys ((processLakeMetadata rows meta minSize reqCoord).2) hasAlt frows →
      ∃ e ∈ (processLakeMetadata rows meta minSize reqCoord).1, e.map_id = some m := by
  intro rows meta minSize reqCoord hasAlt frows m hm
  simp only [processLakeMetadata] at hm ⊢
  simp only [fishTopKeys, List.mem_filterMap] at hm
  obtain ⟨r, _, hslot⟩ := hm
  simp only [Option.map_eq_some'] at hslot
  obtain ⟨⟨m1, sp⟩, hslot, hfst⟩ := hslot
  simp only at hfst
  subst hfst
  unfold rowSlot at hslot
  by_cases hif : (pyFalsyStr (resolveRaw
      (nameToMapIdLookup (applyFilters minSize reqCoord (mergeCounty rows meta))) hasAlt r) ||
      pyFalsyStr (cleanedSpecies r)) = true
  · rw [if_pos hif] at hslot
    exact absurd hslot (by simp)
  · rw [if_neg hif] at hslot
    cases hres : resolveRaw
        (nameToMapIdLookup (applyFilters minSize reqCoord (mergeCounty rows meta))) hasAlt r with
    | none => rw [hres] at hslot; exact absurd hslot (by simp)
    | some m2 =>
      rw [hres] at hslot
      cases hsp : cleanedSpecies r with
      | none => rw [hsp] at hslot; exact absurd hslot (by simp)
      | some sp2 =>
        rw [hsp] at hslot
        simp only [Option.some.injEq, Prod.mk.injEq] at hslot
        obtain ⟨hm2, -⟩ := hslot
        subst hm2
        obtain ⟨n, hn⟩ := resolveRaw_some hres
        obtain ⟨rr, hrr, hmap⟩ := lookup_mem hn
        refine ⟨mkLakeEntry rr, List.mem_map_of_mem _ hrr, ?_⟩
        simpa [mkLakeEntry] using hmap

/-- A primary row for the end-to-end scenario: name `"Alpha"`, DOW codes
`12345` and `3`. -/
def w9src : SrcRow :=
  { fwId := some "2379", lakeName := some "Alpha", altLakeName := none,
    dowPrimary := some "12345", dowSubBasin := some "3", areaAcres := none,
    lat := none, long := none }

/-- A catch row naming the same lake, with species code `"WAE"`. -/
def w9fish : FishRow :=
  { lakeName := some "Alpha", altName := none, species := some "WAE",
    surveyDate := none, cpueRaw := some "1.5", totalCatchRaw := some "7",
    gear := none }

theorem claim_C9_no_orphan_keys_witness :
    "1234503" ∈ fishTopKeys ((processLakeMetadata [w9src] none 0 false).2) true [w9fish] ∧
    ∃ e ∈ (processLakeMetadata [w9src] none 0 false).1, e.map_id = some "1234503" :=
  ⟨by decide,
    claim_C9_no_orphan_keys [w9src] none 0 false true [w9fish] "1234503" (by decide)⟩

/-- Claim C10: an auxiliary row with a falsy species code creates no
output slot and — when its name resolves — is not counted as unlinked;
and the unlinked counter counts exactly the rows whose normalized primary
name is truthy but whose resolution produced no key. -/
theorem claim_C10_species_gate_unlinked :
    ∀ prows hasAlt (r : FishRow) (frows : List FishRow),
      (pyFalsyStr (cleanedSpecies r) = true →
        rowSlot (nameToMapIdLookup prows) hasAlt r = none ∧
        (resolveRaw (nameToMapIdLookup prows) hasAlt r ≠ none →
          countsUnlinked (nameToMapIdLookup prows) hasAlt r = false)) ∧
      unlinkedCount (nameToMapIdLookup prows) hasAlt frows =
        (frows.filter (fun fr => (truthyNormName fr.lakeName).isSome &&
          (resolveRaw (nameToMapIdLookup prows) hasAlt fr == none))).length := by
  intro prows hasAlt r frows
  constructor
  · intro hsp
    constructor
    · simp [rowSlot, hsp]
    · intro hres
      unfold countsUnlinked
      cases hr : resolveRaw (nameToMapIdLookup prows) hasAlt r with
      | none => exact absurd hr hres
      | some m =>
        have hm := resolveRaw_ne_empty hr
        simp [pyFalsyStr, hm]
  · have hpt : ∀ fr, countsUnlinked (nameToMapIdLookup prows) hasAlt fr =
        ((truthyNormName fr.lakeName).isSome &&
          (resolveRaw (nameToMapIdLookup prows) hasAlt fr == none)) := by
      intro fr
      unfold countsUnlinked
      cases hr : resolveRaw (nameToMapIdLookup prows) hasAlt fr with
      | none => simp [pyFalsyStr, Bool.and_comm]
      | some m =>
        have hm := resolveRaw_ne_empty hr
        simp [pyFalsyStr, hm]
    unfold unlinkedCount
    rw [List.filter_congr (fun fr _ => hpt fr)]

/-- A catch row with a resolvable lake name but no species code. -/
def w10fish : FishRow :=
  { lakeName := some "Alpha", altName := none, species := none,
    surveyDate := none, cpueRaw := none, totalCatchRaw := none, gear := none }

theorem claim_C10_species_gate_unlinked_witness :
    pyFalsyStr (cleanedSpecies w10fish) = true ∧
    resolveRaw (nameToMapIdLookup (mergeCounty [w9src] none)) true w10fish ≠ none ∧
    rowSlot (nameToMapIdLookup (mergeCounty [w9src] none)) true w10fish = none ∧
    countsUnlinked (nameToMapIdLookup (mergeCounty [w9src] none)) true w10fish = false :=
  ⟨by decide, by decide,
    ((claim_C10_species_gate_unlinked (mergeCounty [w9src] none) true w10fish []).1
      (by decide)).1,
    ((claim_C10_species_gate_unlinked (mergeCounty [w9src] none) true w10fish []).1
      (by decide)).2 (by decide)⟩

/-- A metadata table with a duplicated `FISHERIES_WATERBODY_ID`. -/
def c6meta : Option (List (String × Option String)) :=
  some [("2379", some "Hubbard"), ("2379", some "Cass")]

theorem claim_C6_left_join_counterexample :
    ((processLakeMetadata [w9src] c6meta 0 false).1).length = 2 ∧
    ((processLakeMetadata [w9src] c6meta 0 false).1).length ≠ [w9src].length :=
  ⟨by decide, by decide⟩

/-- County selected for a primary row when the metadata table has at most
one row per ID: the first (only) match, or the fill-in value. -/
def countyFor (ms : List (String × Option String)) (r : SrcRow) : String :=
  match ms.filter (fun p => p.1 = pyStrOfOpt r.fwId) with
  | [] => "Unknown (Not in Metadata)"
  | p :: _ => p.2.getD "Unknown (Not in Metadata)"

/-- The single merged row a primary row yields when the metadata table is
absent or duplicate-free. -/
def mergedRowOne (meta : Option (List (String × Option String))) (r : SrcRow) : MergedRow :=
  match meta with
  | none => withCounty r "Unknown (Metadata Missing)"
  | some ms => withCounty (astrRow r) (countyFor ms r)

lemma filter_len_le_one (key : String) {ms : List (String × Option String)}
    (hnd : (ms.map Prod.fst).Nodup) :
    (ms.filter (fun p => p.1 = key)).length ≤ 1 := by
  induction ms with
  | nil => simp
  | cons a t ih =>
    simp only [List.map_cons, List.nodup_cons] at hnd
    obtain ⟨hna, hnt⟩ := hnd
    by_cases ha : a.1 = key
    · have ht : t.filter (fun p => decide (p.1 = key)) = [] := by
        rw [List.filter_eq_nil_iff]
        intro x hx
        simp only [decide_eq_true_eq]
        intro hxk
        exact hna (List.mem_map.mpr ⟨x, hx, by rw [hxk, ha]⟩)
      simp [List.filter_cons, ha, ht]
    · simp only [List.filter_cons, decide_eq_true_eq]
      rw [if_neg ha]
      exact ih hnt

lemma mergeOne_eq {ms : List (String × Option String)} {r : SrcRow}
    (hnd : (ms.map Prod.fst).Nodup) :
    mergeOne ms r = [mergedRowOne (some ms) r] := by
  show mergeOne ms r = [withCounty (astrRow r) (countyFor ms r)]
  unfold mergeOne countyFor
  cases hf : ms.filter (fun p => p.1 = pyStrOfOpt r.fwId) with
  | nil => rfl
  | cons p t =>
    cases t with
    | nil => rfl
    | cons q t2 =>
      have hle := filter_len_le_one (pyStrOfOpt r.fwId) hnd
      rw [hf] at hle
      simp at hle

lemma mergeCounty_eq (rows : List SrcRow) {meta : Option (List (String × Option String))}
    (h : meta = none ∨ ∃ ms, meta = some ms ∧ (ms.map Prod.fst).Nodup) :
    mergeCounty rows meta = rows.map (mergedRowOne meta) := by
  rcases h with rfl | ⟨ms, rfl, hnd⟩
  · rfl
  · show rows.flatMap (mergeOne ms) = rows.map (mergedRowOne (some ms))
    induction rows with
    | nil => rfl
    | cons r t ih =>
      rw [List.flatMap_cons, mergeOne_eq hnd, ih, List.singleton_append, List.map_cons]

lemma applyFilters_default (l : List MergedRow) : applyFilters 0 false l = l := by
  unfold applyFilters
  simp

/-- Claim C6, amended: with default filter parameters and a metadata
source that is absent or free of duplicate IDs, every primary row yields
exactly one consolidated record (a duplicated metadata ID duplicates its
matching primary rows, as the counterexample shows). -/
theorem claim_C6_left_join_amended :
    ∀ rows meta,
      (meta = none ∨ ∃ ms, meta = some ms ∧ (ms.map Prod.fst).Nodup) →
      (processLakeMetadata rows meta 0 false).1 =
        rows.map (fun r => mkLakeEntry (mergedRowOne meta r)) ∧
      ((processLakeMetadata rows meta 0 false).1).length = rows.length := by
  intro rows meta h
  have hm := mergeCounty_eq rows h
  have heq : (processLakeMetadata rows meta 0 false).1 =
      rows.map (fun r => mkLakeEntry (mergedRowOne meta r)) := by
    simp only [processLakeMetadata, applyFilters_default, hm, List.map_map]
    rfl
  exact ⟨heq, by rw [heq, List.length_map]⟩

theorem claim_C6_left_join_amended_witness :
    (([("2379", (some "Hubbard" : Option String))].map Prod.fst).Nodup) ∧
    ((processLakeMetadata [w9src] (some [("2379", some "Hubbard")]) 0 false).1).length =
      [w9src].length :=
  ⟨by decide,
    (claim_C6_left_join_amended [w9src] (some [("2379", some "Hubbard")])
      (Or.inr ⟨_, rfl, by decide⟩)).2⟩
